import Mathlib

/-!
Shallow embedding of the H/D/A (home/draw/away) probability estimator of
scripts/generate-upcoming.mjs: the helper clamp, the function computeHDA,
and the standings rating computed in fetchStandingsRatingsByCompetitionId.
JavaScript numbers are modelled by an inductive type JSNum whose finite
values carry a real number; Math.exp is Real.exp, and Math.round on real
arguments agrees with Mathlib's round (both send y to the floor of y + 1/2).
-/

/-- A JavaScript number: a finite value, NaN, Infinity or -Infinity. -/
inductive JSNum where
  | finite (x : ℝ)
  | nan
  | posInf
  | negInf

/-- Number.isFinite: true exactly on finite values. -/
def JSNum.isFinite : JSNum → Bool
  | .finite _ => true
  | _ => false

/-- The record { home, draw, away } returned by computeHDA. -/
structure HDA where
  home : ℝ
  draw : ℝ
  away : ℝ

/-- clamp(n, lo, hi) = Math.max(lo, Math.min(hi, n)) from generate-upcoming.mjs. -/
def clamp (n lo hi : ℝ) : ℝ := max lo (min hi n)

/-- The helper r4 inside computeHDA: Math.round(n * 10000) / 10000. -/
noncomputable def r4 (n : ℝ) : ℝ := (round (n * 10000) : ℝ) / 10000

/-- diff = homeRating - awayRating. -/
def hdaDiff (homeRating awayRating : ℝ) : ℝ := homeRating - awayRating

/-- homeAdv = 0.18, the fixed home-advantage offset. -/
def homeAdv : ℝ := 0.18

/-- x = diff + homeAdv. -/
def hdaX (homeRating awayRating : ℝ) : ℝ := hdaDiff homeRating awayRating + homeAdv

/-- k = 1.65, the steepness of the logistic. -/
def kSteep : ℝ := 1.65

/-- winNoDraw = 1 / (1 + Math.exp(-k * x)). -/
noncomputable def hdaWinNoDraw (homeRating awayRating : ℝ) : ℝ :=
  1 / (1 + Real.exp (-kSteep * hdaX homeRating awayRating))

/-- closeness = Math.exp(-Math.abs(diff) * 1.25). -/
noncomputable def hdaCloseness (homeRating awayRating : ℝ) : ℝ :=
  Real.exp (-|hdaDiff homeRating awayRating| * 1.25)

/-- draw = clamp(0.22 + 0.12 * closeness, 0.18, 0.36). -/
noncomputable def hdaDraw (homeRating awayRating : ℝ) : ℝ :=
  clamp (0.22 + 0.12 * hdaCloseness homeRating awayRating) 0.18 0.36

/-- remaining = 1 - draw. -/
noncomputable def hdaRemaining (homeRating awayRating : ℝ) : ℝ :=
  1 - hdaDraw homeRating awayRating

/-- home = remaining * winNoDraw, before normalization. -/
noncomputable def hdaHome0 (homeRating awayRating : ℝ) : ℝ :=
  hdaRemaining homeRating awayRating * hdaWinNoDraw homeRating awayRating

/-- away = remaining * (1 - winNoDraw), before normalization. -/
noncomputable def hdaAway0 (homeRating awayRating : ℝ) : ℝ :=
  hdaRemaining homeRating awayRating * (1 - hdaWinNoDraw homeRating awayRating)

/-- s = home + draw + away, the normalization divisor. -/
noncomputable def hdaS (homeRating awayRating : ℝ) : ℝ :=
  hdaHome0 homeRating awayRating + hdaDraw homeRating awayRating +
    hdaAway0 homeRating awayRating

/-- The finite branch of computeHDA: divide each component by s, then round
each to 4 decimal places. -/
noncomputable def computeHDAfin (homeRating awayRating : ℝ) : HDA :=
  { home := r4 (hdaHome0 homeRating awayRating / hdaS homeRating awayRating)
    draw := r4 (hdaDraw homeRating awayRating / hdaS homeRating awayRating)
    away := r4 (hdaAway0 homeRating awayRating / hdaS homeRating awayRating) }

/-- computeHDA: the guard returns the fixed fallback when either rating is
not finite, otherwise the finite branch runs. -/
noncomputable def computeHDA : JSNum → JSNum → HDA
  | .finite h, .finite a => computeHDAfin h a
  | _, _ => { home := 0.34, draw := 0.32, away := 0.34 }

/-- Reference definition of the finite branch written from the six steps of
the spec, to be compared with the implementation. -/
noncomputable def computeHDA_specRef (homeRating awayRating : ℝ) : HDA :=
  let diff := homeRating - awayRating
  let x := diff + 0.18
  let winNoDraw := 1 / (1 + Real.exp (-1.65 * x))
  let closeness := Real.exp (-1.25 * |diff|)
  let draw := clamp (0.22 + 0.12 * closeness) 0.18 0.36
  let home := (1 - draw) * winNoDraw
  let away := (1 - draw) * (1 - winNoDraw)
  let s := home + draw + away
  { home := r4 (home / s), draw := r4 (draw / s), away := r4 (away / s) }

/-- safeNum(x, fallback): the value when finite, otherwise the fallback. -/
def safeNum : JSNum → ℝ → ℝ
  | .finite x, _ => x
  | _, fallback => fallback

/-- The standings rating of fetchStandingsRatingsByCompetitionId:
played = Math.max(1, safeNum(playedGames, 1)), then
rating = ppg + gdpg * 0.35 + gFpg * 0.10. -/
noncomputable def teamRating (playedGames points goalsFor goalsAgainst : JSNum) : ℝ :=
  let played := max 1 (safeNum playedGames 1)
  let pts := safeNum points 0
  let gf := safeNum goalsFor 0
  let ga := safeNum goalsAgainst 0
  let gd := gf - ga
  let ppg := pts / played
  let gdpg := gd / played
  let gFpg := gf / played
  ppg + gdpg * 0.35 + gFpg * 0.10

/-- The pre-rounding home probability as a function of the rating gap t,
with the clamp already resolved (it never binds, see hdaDraw_eq_unclamped). -/
noncomputable def homePre (t : ℝ) : ℝ :=
  (1 - (0.22 + 0.12 * Real.exp (-|t| * 1.25))) *
    (1 / (1 + Real.exp (-1.65 * (t + 0.18))))

/-- The pre-rounding away probability as a function of the rating gap t. -/
noncomputable def awayPre (t : ℝ) : ℝ :=
  (1 - (0.22 + 0.12 * Real.exp (-|t| * 1.25))) *
    (1 - 1 / (1 + Real.exp (-1.65 * (t + 0.18))))

theorem hdaCloseness_pos (h a : ℝ) : 0 < hdaCloseness h a :=
  Real.exp_pos _

theorem hdaCloseness_le_one (h a : ℝ) : hdaCloseness h a ≤ 1 := by
  rw [hdaCloseness, Real.exp_le_one_iff]
  nlinarith [abs_nonneg (hdaDiff h a)]

theorem hdaDraw_eq_unclamped (h a : ℝ) :
    hdaDraw h a = 0.22 + 0.12 * hdaCloseness h a := by
  have h1 := hdaCloseness_pos h a
  have h2 := hdaCloseness_le_one h a
  rw [hdaDraw, clamp, min_eq_right (by nlinarith), max_eq_right (by nlinarith)]

theorem hdaDraw_gt (h a : ℝ) : 0.22 < hdaDraw h a := by
  have h1 := hdaCloseness_pos h a
  rw [hdaDraw_eq_unclamped]; nlinarith

theorem hdaDraw_le (h a : ℝ) : hdaDraw h a ≤ 0.34 := by
  have h2 := hdaCloseness_le_one h a
  rw [hdaDraw_eq_unclamped]; nlinarith

theorem hdaWinNoDraw_pos (h a : ℝ) : 0 < hdaWinNoDraw h a := by
  have := Real.exp_pos (-kSteep * hdaX h a)
  rw [hdaWinNoDraw]; positivity

theorem hdaWinNoDraw_lt_one (h a : ℝ) : hdaWinNoDraw h a < 1 := by
  have h1 := Real.exp_pos (-kSteep * hdaX h a)
  rw [hdaWinNoDraw, div_lt_one (by linarith)]; linarith

theorem hdaS_eq_one (h a : ℝ) : hdaS h a = 1 := by
  rw [hdaS, hdaHome0, hdaAway0, hdaRemaining]; ring

theorem r4_eq_int {x : ℝ} {n : ℤ} (h1 : (n : ℝ) - 1 / 2 ≤ x * 10000)
    (h2 : x * 10000 < (n : ℝ) + 1 / 2) : r4 x = (n : ℝ) / 10000 := by
  rw [r4, round_eq]
  have : ⌊x * 10000 + 1 / 2⌋ = n := Int.floor_eq_iff.2 ⟨by linarith, by linarith⟩
  rw [this]

theorem r4_mono {x y : ℝ} (h : x ≤ y) : r4 x ≤ r4 y := by
  rw [r4, r4, round_eq, round_eq]
  have : ⌊x * 10000 + 1 / 2⌋ ≤ ⌊y * 10000 + 1 / 2⌋ :=
    Int.floor_le_floor (by linarith)
  have hc : ((⌊x * 10000 + 1 / 2⌋ : ℤ) : ℝ) ≤ ((⌊y * 10000 + 1 / 2⌋ : ℤ) : ℝ) := by
    exact_mod_cast this
  linarith

theorem r4_lt_of_gap {x y : ℝ} (h : x + 1 / 10000 ≤ y) : r4 x < r4 y := by
  rw [r4, r4, round_eq, round_eq]
  have h0 : ⌊x * 10000 + 1 / 2 + (1 : ℤ)⌋ = ⌊x * 10000 + 1 / 2⌋ + 1 :=
    Int.floor_add_int _ _
  have h1 : ⌊x * 10000 + 1 / 2⌋ + 1 ≤ ⌊y * 10000 + 1 / 2⌋ := by
    rw [← h0]
    exact Int.floor_le_floor (by push_cast; linarith)
  have hc : ((⌊x * 10000 + 1 / 2⌋ : ℤ) : ℝ) + 1 ≤ ((⌊y * 10000 + 1 / 2⌋ : ℤ) : ℝ) := by
    exact_mod_cast h1
  linarith

theorem r4_abs_sub (x : ℝ) : |r4 x - x| ≤ 1 / 20000 := by
  have h := abs_sub_round (x * 10000)
  rw [r4]
  rw [abs_le] at h ⊢
  exact ⟨by linarith [h.1, h.2], by linarith [h.1, h.2]⟩

theorem exp_0066_bounds : (1.0682267 : ℝ) ≤ Real.exp 0.066 ∧ Real.exp 0.066 ≤ 1.0682268 := by
  constructor
  · have h := Real.sum_le_exp_of_nonneg (x := (0.066 : ℝ)) (by norm_num) 5
    refine le_trans ?_ h
    simp [Finset.sum_range_succ, Nat.factorial]
    norm_num
  · have h := Real.exp_bound' (x := (0.066 : ℝ)) (by norm_num) (by norm_num)
      (n := 5) (by norm_num)
    refine le_trans h ?_
    simp [Finset.sum_range_succ, Nat.factorial]
    norm_num

theorem exp_neg_0066_bounds :
    (0.9361307 : ℝ) ≤ Real.exp (-0.066) ∧ Real.exp (-0.066) ≤ 0.9361309 := by
  obtain ⟨h1, h2⟩ := exp_0066_bounds
  have hp : (0 : ℝ) < Real.exp 0.066 := Real.exp_pos _
  have he : Real.exp (-0.066 : ℝ) = (Real.exp 0.066)⁻¹ := by
    rw [← Real.exp_neg]
  rw [he, inv_eq_one_div]
  exact ⟨by rw [le_div_iff hp]; nlinarith, by rw [div_le_iff hp]; nlinarith⟩

theorem exp_0175_bounds : (1.1912461 : ℝ) ≤ Real.exp 0.175 ∧ Real.exp 0.175 ≤ 1.1912463 := by
  constructor
  · have h := Real.sum_le_exp_of_nonneg (x := (0.175 : ℝ)) (by norm_num) 6
    refine le_trans ?_ h
    simp [Finset.sum_range_succ, Nat.factorial]
    norm_num
  · have h := Real.exp_bound' (x := (0.175 : ℝ)) (by norm_num) (by norm_num)
      (n := 6) (by norm_num)
    refine le_trans h ?_
    simp [Finset.sum_range_succ, Nat.factorial]
    norm_num

theorem exp_neg_0175_bounds :
    (0.8394569 : ℝ) ≤ Real.exp (-0.175) ∧ Real.exp (-0.175) ≤ 0.8394572 := by
  obtain ⟨h1, h2⟩ := exp_0175_bounds
  have hp : (0 : ℝ) < Real.exp 0.175 := Real.exp_pos _
  have he : Real.exp (-0.175 : ℝ) = (Real.exp 0.175)⁻¹ := by
    rw [← Real.exp_neg]
  rw [he, inv_eq_one_div]
  exact ⟨by rw [le_div_iff hp]; nlinarith, by rw [div_le_iff hp]; nlinarith⟩

theorem exp_0297_bounds : (1.3458143 : ℝ) ≤ Real.exp 0.297 ∧ Real.exp 0.297 ≤ 1.3458155 := by
  constructor
  · have h := Real.sum_le_exp_of_nonneg (x := (0.297 : ℝ)) (by norm_num) 6
    refine le_trans ?_ h
    simp [Finset.sum_range_succ, Nat.factorial]
    norm_num
  · have h := Real.exp_bound' (x := (0.297 : ℝ)) (by norm_num) (by norm_num)
      (n := 6) (by norm_num)
    refine le_trans h ?_
    simp [Finset.sum_range_succ, Nat.factorial]
    norm_num

theorem exp_neg_0297_bounds :
    (0.7430439 : ℝ) ≤ Real.exp (-0.297) ∧ Real.exp (-0.297) ≤ 0.7430446 := by
  obtain ⟨h1, h2⟩ := exp_0297_bounds
  have hp : (0 : ℝ) < Real.exp 0.297 := Real.exp_pos _
  have he : Real.exp (-0.297 : ℝ) = (Real.exp 0.297)⁻¹ := by
    rw [← Real.exp_neg]
  rw [he, inv_eq_one_div]
  exact ⟨by rw [le_div_iff hp]; nlinarith, by rw [div_le_iff hp]; nlinarith⟩

theorem exp_075_bounds : (2.1169973 : ℝ) ≤ Real.exp 0.75 ∧ Real.exp 0.75 ≤ 2.1170002 := by
  constructor
  · have h := Real.sum_le_exp_of_nonneg (x := (0.75 : ℝ)) (by norm_num) 8
    refine le_trans ?_ h
    simp [Finset.sum_range_succ, Nat.factorial]
    norm_num
  · have h := Real.exp_bound' (x := (0.75 : ℝ)) (by norm_num) (by norm_num)
      (n := 8) (by norm_num)
    refine le_trans h ?_
    simp [Finset.sum_range_succ, Nat.factorial]
    norm_num

theorem exp_neg_075_bounds :
    (0.4723665 : ℝ) ≤ Real.exp (-0.75) ∧ Real.exp (-0.75) ≤ 0.4723672 := by
  obtain ⟨h1, h2⟩ := exp_075_bounds
  have hp : (0 : ℝ) < Real.exp 0.75 := Real.exp_pos _
  have he : Real.exp (-0.75 : ℝ) = (Real.exp 0.75)⁻¹ := by
    rw [← Real.exp_neg]
  rw [he, inv_eq_one_div]
  exact ⟨by rw [le_div_iff hp]; nlinarith, by rw [div_le_iff hp]; nlinarith⟩

theorem exp_0287_bounds : (1.3324234 : ℝ) ≤ Real.exp 0.287 ∧ Real.exp 0.287 ≤ 1.3324244 := by
  constructor
  · have h := Real.sum_le_exp_of_nonneg (x := (0.287 : ℝ)) (by norm_num) 6
    refine le_trans ?_ h
    simp [Finset.sum_range_succ, Nat.factorial]
    norm_num
  · have h := Real.exp_bound' (x := (0.287 : ℝ)) (by norm_num) (by norm_num)
      (n := 6) (by norm_num)
    refine le_trans h ?_
    simp [Finset.sum_range_succ, Nat.factorial]
    norm_num

theorem exp_1287_bounds : (3.6219023 : ℝ) ≤ Real.exp 1.287 ∧ Real.exp 1.287 ≤ 3.6219051 := by
  obtain ⟨h1, h2⟩ := exp_0287_bounds
  have he1 := Real.exp_one_gt_d9
  have he2 := Real.exp_one_lt_d9
  have hp1 : (0 : ℝ) < Real.exp 1 := Real.exp_pos _
  have hp2 : (0 : ℝ) < Real.exp 0.287 := Real.exp_pos _
  have key : Real.exp (1.287 : ℝ) = Real.exp 1 * Real.exp 0.287 := by
    rw [← Real.exp_add]; norm_num
  rw [key]
  constructor
  · nlinarith
  · nlinarith

theorem exp_neg_1287_bounds :
    (0.2760977 : ℝ) ≤ Real.exp (-1.287) ∧ Real.exp (-1.287) ≤ 0.2760981 := by
  obtain ⟨h1, h2⟩ := exp_1287_bounds
  have hp : (0 : ℝ) < Real.exp 1.287 := Real.exp_pos _
  have he : Real.exp (-1.287 : ℝ) = (Real.exp 1.287)⁻¹ := by
    rw [← Real.exp_neg]
  rw [he, inv_eq_one_div]
  exact ⟨by rw [le_div_iff hp]; nlinarith, by rw [div_le_iff hp]; nlinarith⟩

theorem exp_ge_27pow (n : ℕ) {x : ℝ} (hx : (n : ℝ) ≤ x) : (2.7 : ℝ) ^ n ≤ Real.exp x := by
  have h1 : (2.7 : ℝ) ^ n ≤ Real.exp 1 ^ n :=
    pow_le_pow_left (by norm_num) (by linarith [Real.exp_one_gt_d9]) n
  have h2 : Real.exp 1 ^ n = Real.exp n := by
    rw [← Real.exp_nat_mul]; norm_num
  calc (2.7 : ℝ) ^ n ≤ Real.exp 1 ^ n := h1
    _ = Real.exp n := h2
    _ ≤ Real.exp x := Real.exp_le_exp.2 hx

theorem exp_neg_le_27pow (n : ℕ) {x : ℝ} (hx : (n : ℝ) ≤ x) :
    Real.exp (-x) ≤ 1 / (2.7 : ℝ) ^ n := by
  rw [Real.exp_neg, inv_eq_one_div]
  exact one_div_le_one_div_of_le (by positivity) (exp_ge_27pow n hx)

theorem hdaHome0_eq_homePre (h a : ℝ) : hdaHome0 h a = homePre (h - a) := by
  rw [hdaHome0, hdaRemaining, hdaDraw_eq_unclamped, hdaWinNoDraw, hdaCloseness,
    hdaX, hdaDiff, homePre, homeAdv, kSteep]

theorem hdaAway0_eq_awayPre (h a : ℝ) : hdaAway0 h a = awayPre (h - a) := by
  rw [hdaAway0, hdaRemaining, hdaDraw_eq_unclamped, hdaWinNoDraw, hdaCloseness,
    hdaX, hdaDiff, awayPre, homeAdv, kSteep]

/-- C1: on finite inputs, computeHDA coincides with the reference definition
assembled from the six steps stated in the spec (diff, x, winNoDraw,
closeness with draw clamp, raw home/away split, normalization by the sum,
then rounding each component to 4 decimal places, in that order). -/
theorem computeHDA_eq_specRef : ∀ h a : ℝ,
    computeHDA (.finite h) (.finite a) = computeHDA_specRef h a := by
  intro h a
  show computeHDAfin h a = computeHDA_specRef h a
  have harg : (-|h - a| * 1.25 : ℝ) = -1.25 * |h - a| := by ring
  simp only [computeHDAfin, computeHDA_specRef, hdaHome0, hdaAway0, hdaRemaining,
    hdaDraw, hdaCloseness, hdaWinNoDraw, hdaX, hdaDiff, hdaS, homeAdv, kSteep, harg]

/-- C3: whenever at least one input is not finite (NaN or an infinity),
computeHDA returns exactly the neutral fallback triple
home 0.34, draw 0.32, away 0.34; in particular at (NaN, 5), (5, NaN) and
(NaN, NaN). -/
theorem computeHDA_nonfinite_fallback :
    (∀ hr ar : JSNum, (hr.isFinite = false ∨ ar.isFinite = false) →
      computeHDA hr ar = { home := 0.34, draw := 0.32, away := 0.34 }) ∧
    computeHDA .nan (.finite 5) = { home := 0.34, draw := 0.32, away := 0.34 } ∧
    computeHDA (.finite 5) .nan = { home := 0.34, draw := 0.32, away := 0.34 } ∧
    computeHDA .nan .nan = { home := 0.34, draw := 0.32, away := 0.34 } := by
  refine ⟨?_, rfl, rfl, rfl⟩
  rintro hr ar h
  cases hr <;> cases ar <;>
    first
      | rfl
      | (exfalso; simp [JSNum.isFinite] at h)

/-- Witness for C3 at the concrete non-finite input (Infinity, 5). -/
theorem computeHDA_nonfinite_fallback_witness :
    computeHDA .posInf (.finite 5) = { home := 0.34, draw := 0.32, away := 0.34 } :=
  computeHDA_nonfinite_fallback.1 .posInf (.finite 5) (Or.inl rfl)

/-- C5: the clamp on draw never binds below (draw before rounding exceeds
0.22 strictly, so the lower clamp bound 0.18 is never attained), and the
returned draw lies in the closed interval from 0.22 to 0.34. -/
theorem hdaDraw_lower_clamp_never_binds : ∀ h a : ℝ,
    hdaDraw h a = 0.22 + 0.12 * hdaCloseness h a ∧
    0.22 < hdaDraw h a / hdaS h a ∧
    0.22 ≤ (computeHDA (.finite h) (.finite a)).draw ∧
    (computeHDA (.finite h) (.finite a)).draw ≤ 0.34 := by
  intro h a
  have hdrw : (computeHDA (.finite h) (.finite a)).draw = r4 (hdaDraw h a) := by
    show (computeHDAfin h a).draw = r4 (hdaDraw h a)
    simp [computeHDAfin, hdaS_eq_one]
  have h022 : r4 0.22 = 0.22 := by
    have := r4_eq_int (x := (0.22 : ℝ)) (n := 2200) (by norm_num) (by norm_num)
    rw [this]; norm_num
  have h034 : r4 0.34 = 0.34 := by
    have := r4_eq_int (x := (0.34 : ℝ)) (n := 3400) (by norm_num) (by norm_num)
    rw [this]; norm_num
  refine ⟨hdaDraw_eq_unclamped h a, ?_, ?_, ?_⟩
  · rw [hdaS_eq_one, div_one]; exact hdaDraw_gt h a
  · rw [hdrw, ← h022]
    exact r4_mono (le_of_lt (hdaDraw_gt h a))
  · rw [hdrw, ← h034]
    exact r4_mono (hdaDraw_le h a)

/-- C9: the standings rating equals pointsPerGame plus 0.35 times goal
difference per game plus 0.10 times goals-for per game, with gamesPlayed
clamped to at least 1 before dividing; with zero games played the divisor
is 1 and the rating is still a well-defined number. -/
theorem teamRating_formula : ∀ pg pts gf ga : ℝ,
    teamRating (.finite pg) (.finite pts) (.finite gf) (.finite ga) =
      pts / max 1 pg + 0.35 * ((gf - ga) / max 1 pg) + 0.10 * (gf / max 1 pg) ∧
    teamRating (.finite 0) (.finite pts) (.finite gf) (.finite ga) =
      pts + 0.35 * (gf - ga) + 0.10 * gf := by
  intro pg pts gf ga
  constructor
  · simp only [teamRating, safeNum]; ring
  · simp only [teamRating, safeNum]
    rw [max_eq_left (by norm_num : (0 : ℝ) ≤ 1)]
    field_simp
    ring

/-- C10: computeHDA is total and deterministic: every pair of inputs lands
in the finite branch or returns the fixed fallback triple, and equal
inputs give equal outputs. -/
theorem computeHDA_total_deterministic :
    (∀ x y : JSNum, (∃ h a : ℝ, x = .finite h ∧ y = .finite a ∧
        computeHDA x y = computeHDAfin h a) ∨
      computeHDA x y = { home := 0.34, draw := 0.32, away := 0.34 }) ∧
    (∀ x y x' y' : JSNum, x = x' → y = y' → computeHDA x y = computeHDA x' y') := by
  constructor
  · intro x y
    cases x <;> cases y <;>
      first
        | (exact Or.inr rfl)
        | (rename_i h a; exact Or.inl ⟨h, a, rfl, rfl, rfl⟩)
  · intro x y x' y' hx hy
    rw [hx, hy]

/-- Witness for C10 at concrete equal inputs. -/
theorem computeHDA_total_deterministic_witness :
    computeHDA .nan .posInf = computeHDA .nan .posInf :=
  computeHDA_total_deterministic.2 .nan .posInf .nan .posInf rfl rfl

theorem hdaDraw_self (r : ℝ) : hdaDraw r r = 0.34 := by
  rw [hdaDraw_eq_unclamped, hdaCloseness, hdaDiff]
  simp
  norm_num

theorem hdaWinNoDraw_self (r : ℝ) : hdaWinNoDraw r r = 1 / (1 + Real.exp (-0.297)) := by
  have harg : -kSteep * hdaX r r = (-0.297 : ℝ) := by
    rw [kSteep, hdaX, hdaDiff, homeAdv]; ring
  rw [hdaWinNoDraw, harg]

/-- C6 counterexample: at equal ratings the draw value before rounding
(after the normalization step, which divides by exactly 1) is exactly 0.34,
not approximately 0.3375: the deviation is 0.0025. -/
theorem computeHDA_equal_ratings_draw_not_03375 :
    hdaDraw 0 0 / hdaS 0 0 = 0.34 ∧
    ¬(|hdaDraw 0 0 / hdaS 0 0 - 0.3375| < 0.002) := by
  have h1 : hdaDraw 0 0 / hdaS 0 0 = 0.34 := by
    rw [hdaS_eq_one, div_one, hdaDraw_self]
  refine ⟨h1, ?_⟩
  rw [h1]
  rw [show (0.34 : ℝ) - 0.3375 = 0.0025 by norm_num]
  rw [abs_of_nonneg (by norm_num)]
  norm_num

/-- C6 amended: at equal ratings the pre-rounding draw is exactly 0.34 -
the maximum attainable value over all inputs - the returned draw is 0.34,
and the returned home strictly exceeds the returned away because of the
home-advantage offset. -/
theorem computeHDA_equal_ratings : ∀ r : ℝ,
    hdaDraw r r / hdaS r r = 0.34 ∧
    (∀ h a : ℝ, hdaDraw h a / hdaS h a ≤ 0.34) ∧
    (computeHDA (.finite r) (.finite r)).draw = 0.34 ∧
    (computeHDA (.finite r) (.finite r)).away <
      (computeHDA (.finite r) (.finite r)).home := by
  intro r
  have hF := exp_neg_0297_bounds
  have hFpos : (0 : ℝ) < Real.exp (-0.297) := Real.exp_pos _
  have hdrw : hdaDraw r r / hdaS r r = 0.34 := by
    rw [hdaS_eq_one, div_one, hdaDraw_self]
  refine ⟨hdrw, ?_, ?_, ?_⟩
  · intro h a
    rw [hdaS_eq_one, div_one]
    exact hdaDraw_le h a
  · show (computeHDAfin r r).draw = 0.34
    have : (computeHDAfin r r).draw = r4 (hdaDraw r r / hdaS r r) := rfl
    rw [this, hdrw]
    have := r4_eq_int (x := (0.34 : ℝ)) (n := 3400) (by norm_num) (by norm_num)
    rw [this]; norm_num
  · show (computeHDAfin r r).away < (computeHDAfin r r).home
    have hh : (computeHDAfin r r).home = r4 (hdaHome0 r r) := by
      show r4 (hdaHome0 r r / hdaS r r) = r4 (hdaHome0 r r)
      rw [hdaS_eq_one, div_one]
    have ha : (computeHDAfin r r).away = r4 (hdaAway0 r r) := by
      show r4 (hdaAway0 r r / hdaS r r) = r4 (hdaAway0 r r)
      rw [hdaS_eq_one, div_one]
    rw [hh, ha]
    apply r4_lt_of_gap
    have hWlb : (0.57 : ℝ) ≤ 1 / (1 + Real.exp (-0.297)) := by
      rw [le_div_iff (by linarith)]
      nlinarith [hF.2]
    have hWub : 1 / (1 + Real.exp (-0.297)) ≤ 1 := by
      rw [div_le_one (by linarith)]
      linarith
    rw [hdaHome0, hdaAway0, hdaRemaining, hdaDraw_self, hdaWinNoDraw_self]
    nlinarith [hWlb, hWub]

theorem r4_draw_returned (h a : ℝ) :
    (computeHDA (.finite h) (.finite a)).draw = r4 (hdaDraw h a) := by
  show (computeHDAfin h a).draw = r4 (hdaDraw h a)
  simp [computeHDAfin, hdaS_eq_one]

theorem r4_home_returned (h a : ℝ) :
    (computeHDA (.finite h) (.finite a)).home = r4 (hdaHome0 h a) := by
  show (computeHDAfin h a).home = r4 (hdaHome0 h a)
  simp [computeHDAfin, hdaS_eq_one]

theorem r4_away_returned (h a : ℝ) :
    (computeHDA (.finite h) (.finite a)).away = r4 (hdaAway0 h a) := by
  show (computeHDAfin h a).away = r4 (hdaAway0 h a)
  simp [computeHDAfin, hdaS_eq_one]

theorem r4_022 : r4 0.22 = 0.22 := by
  have := r4_eq_int (x := (0.22 : ℝ)) (n := 2200) (by norm_num) (by norm_num)
  rw [this]; norm_num

theorem returned_draw_ge_022 (h a : ℝ) :
    0.22 ≤ (computeHDA (.finite h) (.finite a)).draw := by
  rw [r4_draw_returned, ← r4_022]
  exact r4_mono (le_of_lt (hdaDraw_gt h a))

theorem computeHDA_saturated {h : ℝ} (hc : hdaCloseness h 0 ≤ 0.0000067)
    (hF : Real.exp (-kSteep * hdaX h 0) ≤ 0.00000013) :
    computeHDA (.finite h) (.finite 0) = { home := 0.78, draw := 0.22, away := 0 } := by
  have hcpos := hdaCloseness_pos h 0
  have hd1 : hdaDraw h 0 ≤ 0.2200009 := by
    rw [hdaDraw_eq_unclamped]; linarith
  have hd0 : 0.22 < hdaDraw h 0 := hdaDraw_gt h 0
  have hFpos : 0 < Real.exp (-kSteep * hdaX h 0) := Real.exp_pos _
  have hW1 : hdaWinNoDraw h 0 ≤ 1 := le_of_lt (hdaWinNoDraw_lt_one h 0)
  have hW0 : 0.99999 ≤ hdaWinNoDraw h 0 := by
    rw [hdaWinNoDraw, le_div_iff (by linarith)]
    nlinarith
  have hWnn : 0 ≤ hdaWinNoDraw h 0 := le_of_lt (hdaWinNoDraw_pos h 0)
  show computeHDAfin h 0 = _
  rw [computeHDAfin]
  congr 1
  · rw [hdaS_eq_one, div_one, hdaHome0, hdaRemaining]
    have := r4_eq_int (x := (1 - hdaDraw h 0) * hdaWinNoDraw h 0) (n := 7800)
      (by nlinarith) (by nlinarith)
    rw [this]; norm_num
  · rw [hdaS_eq_one, div_one]
    have := r4_eq_int (x := hdaDraw h 0) (n := 2200)
      (by nlinarith) (by nlinarith)
    rw [this]; norm_num
  · rw [hdaS_eq_one, div_one, hdaAway0, hdaRemaining]
    have := r4_eq_int (x := (1 - hdaDraw h 0) * (1 - hdaWinNoDraw h 0)) (n := 0)
      (by nlinarith) (by nlinarith)
    rw [this]; norm_num

theorem computeHDA_at_ten :
    computeHDA (.finite 10) (.finite 0) = { home := 0.78, draw := 0.22, away := 0 } := by
  apply computeHDA_saturated
  · have h1 : hdaCloseness 10 0 = Real.exp (-12.5) := by
      rw [hdaCloseness, hdaDiff]
      norm_num
    rw [h1]
    calc Real.exp (-12.5 : ℝ) ≤ 1 / (2.7 : ℝ) ^ 12 := exp_neg_le_27pow 12 (by norm_num)
      _ ≤ 0.0000067 := by norm_num
  · have harg : -kSteep * hdaX 10 0 = (-16.797 : ℝ) := by
      rw [kSteep, hdaX, hdaDiff, homeAdv]; ring
    rw [harg]
    calc Real.exp (-16.797 : ℝ) ≤ 1 / (2.7 : ℝ) ^ 16 := exp_neg_le_27pow 16 (by norm_num)
      _ ≤ 0.00000013 := by norm_num

theorem computeHDA_at_eleven :
    computeHDA (.finite 11) (.finite 0) = { home := 0.78, draw := 0.22, away := 0 } := by
  apply computeHDA_saturated
  · have h1 : hdaCloseness 11 0 = Real.exp (-13.75) := by
      rw [hdaCloseness, hdaDiff]
      norm_num
    rw [h1]
    calc Real.exp (-13.75 : ℝ) ≤ 1 / (2.7 : ℝ) ^ 13 := exp_neg_le_27pow 13 (by norm_num)
      _ ≤ 0.0000067 := by norm_num
  · have harg : -kSteep * hdaX 11 0 = (-18.447 : ℝ) := by
      rw [kSteep, hdaX, hdaDiff, homeAdv]; ring
    rw [harg]
    calc Real.exp (-18.447 : ℝ) ≤ 1 / (2.7 : ℝ) ^ 18 := exp_neg_le_27pow 18 (by norm_num)
      _ ≤ 0.00000013 := by norm_num

/-- C4 counterexample: the returned draw never gets within 0.01 of 0.18,
because the draw before rounding always exceeds 0.22 (the closeness term
tends to 0, so draw tends to 0.22, not to the lower clamp bound 0.18). -/
theorem computeHDA_draw_limit_not_018 :
    ¬(∀ ε : ℝ, 0 < ε → ∃ h a : ℝ,
        |(computeHDA (.finite h) (.finite a)).draw - 0.18| < ε) := by
  intro hcl
  obtain ⟨h, a, hlt⟩ := hcl 0.01 (by norm_num)
  have h022 := returned_draw_ge_022 h a
  rw [abs_lt] at hlt
  linarith [hlt.1, hlt.2]

/-- C4 amended: with extreme rating gaps the returned draw approaches 0.22
(the base of the draw term) and the winner's returned probability
approaches 1 - 0.22 = 0.78: for every positive tolerance there are finite
inputs whose returned draw is within it of 0.22 and whose returned home is
within it of 0.78 (at gap 10 both are attained exactly). -/
theorem computeHDA_extreme_gap_limit : ∀ ε : ℝ, 0 < ε →
    ∃ h a : ℝ, |(computeHDA (.finite h) (.finite a)).draw - 0.22| < ε ∧
      |(computeHDA (.finite h) (.finite a)).home - 0.78| < ε := by
  intro ε hε
  refine ⟨10, 0, ?_, ?_⟩
  · rw [computeHDA_at_ten]
    simpa using hε
  · rw [computeHDA_at_ten]
    simpa using hε

/-- Witness for the amended C4 at tolerance 1. -/
theorem computeHDA_extreme_gap_limit_witness :
    ∃ h a : ℝ, |(computeHDA (.finite h) (.finite a)).draw - 0.22| < 1 ∧
      |(computeHDA (.finite h) (.finite a)).home - 0.78| < 1 :=
  computeHDA_extreme_gap_limit 1 (by norm_num)

theorem r4_zero : r4 0 = 0 := by
  have := r4_eq_int (x := (0 : ℝ)) (n := 0) (by norm_num) (by norm_num)
  rw [this]; norm_num

theorem r4_one : r4 1 = 1 := by
  have := r4_eq_int (x := (1 : ℝ)) (n := 10000) (by norm_num) (by norm_num)
  rw [this]; norm_num

theorem hdaHome0_nonneg (h a : ℝ) : 0 ≤ hdaHome0 h a := by
  have hd1 := hdaDraw_le h a
  have hw0 := hdaWinNoDraw_pos h a
  rw [hdaHome0, hdaRemaining]
  nlinarith

theorem hdaHome0_le_one (h a : ℝ) : hdaHome0 h a ≤ 1 := by
  have hd0 := hdaDraw_gt h a
  have hw0 := hdaWinNoDraw_pos h a
  have hw1 := hdaWinNoDraw_lt_one h a
  rw [hdaHome0, hdaRemaining]
  nlinarith

theorem hdaAway0_nonneg (h a : ℝ) : 0 ≤ hdaAway0 h a := by
  have hd1 := hdaDraw_le h a
  have hw1 := hdaWinNoDraw_lt_one h a
  rw [hdaAway0, hdaRemaining]
  nlinarith

theorem hdaAway0_le_one (h a : ℝ) : hdaAway0 h a ≤ 1 := by
  have hd0 := hdaDraw_gt h a
  have hw0 := hdaWinNoDraw_pos h a
  have hw1 := hdaWinNoDraw_lt_one h a
  rw [hdaAway0, hdaRemaining]
  nlinarith

/-- C2 amended: every returned component lies in the unit interval and the
returned sum differs from 1 by at most 0.0001 (one unit in the fourth
decimal place; the rounded components need not sum to 1 within 1e-9). -/
theorem computeHDA_components_unit_sum : ∀ h a : ℝ,
    0 ≤ (computeHDA (.finite h) (.finite a)).home ∧
    (computeHDA (.finite h) (.finite a)).home ≤ 1 ∧
    0 ≤ (computeHDA (.finite h) (.finite a)).draw ∧
    (computeHDA (.finite h) (.finite a)).draw ≤ 1 ∧
    0 ≤ (computeHDA (.finite h) (.finite a)).away ∧
    (computeHDA (.finite h) (.finite a)).away ≤ 1 ∧
    |(computeHDA (.finite h) (.finite a)).home +
      (computeHDA (.finite h) (.finite a)).draw +
      (computeHDA (.finite h) (.finite a)).away - 1| ≤ 0.0001 := by
  intro h a
  have hd0 := hdaDraw_gt h a
  have hd1 := hdaDraw_le h a
  rw [r4_home_returned, r4_draw_returned, r4_away_returned]
  refine ⟨?_, ?_, ?_, ?_, ?_, ?_, ?_⟩
  · rw [← r4_zero]; exact r4_mono (hdaHome0_nonneg h a)
  · rw [← r4_one]; exact r4_mono (hdaHome0_le_one h a)
  · rw [← r4_zero]; exact r4_mono (by linarith)
  · rw [← r4_one]; exact r4_mono (by linarith)
  · rw [← r4_zero]; exact r4_mono (hdaAway0_nonneg h a)
  · rw [← r4_one]; exact r4_mono (hdaAway0_le_one h a)
  · have hsum : hdaHome0 h a + hdaDraw h a + hdaAway0 h a = 1 := by
      have hs := hdaS_eq_one h a
      rw [hdaS] at hs
      linarith
    have s1 := abs_sub_round (hdaHome0 h a * 10000)
    have s2 := abs_sub_round (hdaDraw h a * 10000)
    have s3 := abs_sub_round (hdaAway0 h a * 10000)
    rw [abs_le] at s1 s2 s3
    rw [r4, r4, r4]
    have hup : ((round (hdaHome0 h a * 10000) + round (hdaDraw h a * 10000) +
        round (hdaAway0 h a * 10000) : ℤ) : ℝ) < 10002 := by
      push_cast
      nlinarith [s1.1, s2.1, s3.1]
    have hdn : (9998 : ℝ) < ((round (hdaHome0 h a * 10000) + round (hdaDraw h a * 10000) +
        round (hdaAway0 h a * 10000) : ℤ) : ℝ) := by
      push_cast
      nlinarith [s1.2, s2.2, s3.2]
    have hupz : round (hdaHome0 h a * 10000) + round (hdaDraw h a * 10000) +
        round (hdaAway0 h a * 10000) < 10002 := by exact_mod_cast hup
    have hdnz : (9998 : ℤ) < round (hdaHome0 h a * 10000) + round (hdaDraw h a * 10000) +
        round (hdaAway0 h a * 10000) := by exact_mod_cast hdn
    have hint : round (hdaHome0 h a * 10000) + round (hdaDraw h a * 10000) +
        round (hdaAway0 h a * 10000) ≤ 10001 ∧
        (9999 : ℤ) ≤ round (hdaHome0 h a * 10000) + round (hdaDraw h a * 10000) +
        round (hdaAway0 h a * 10000) := by omega
    have hcup : ((round (hdaHome0 h a * 10000) + round (hdaDraw h a * 10000) +
        round (hdaAway0 h a * 10000) : ℤ) : ℝ) ≤ 10001 := by exact_mod_cast hint.1
    have hcdn : (9999 : ℝ) ≤ ((round (hdaHome0 h a * 10000) + round (hdaDraw h a * 10000) +
        round (hdaAway0 h a * 10000) : ℤ) : ℝ) := by exact_mod_cast hint.2
    push_cast at hcup hcdn
    rw [abs_le]
    constructor
    · linarith
    · linarith

/-- C2 counterexample: at ratings (0, 0.14) the three returned values are
0.3508, 0.3207 and 0.3284, whose sum is 0.9999, which is not within 1e-9
of 1 (the three roundings can jointly lose one unit in the fourth decimal
place even though the pre-rounding values sum to exactly 1). -/
theorem computeHDA_sum_counterexample :
    (computeHDA (.finite 0) (.finite 0.14)).home = 0.3508 ∧
    (computeHDA (.finite 0) (.finite 0.14)).draw = 0.3207 ∧
    (computeHDA (.finite 0) (.finite 0.14)).away = 0.3284 ∧
    (computeHDA (.finite 0) (.finite 0.14)).home +
      (computeHDA (.finite 0) (.finite 0.14)).draw +
      (computeHDA (.finite 0) (.finite 0.14)).away = 0.9999 ∧
    ¬(|(computeHDA (.finite 0) (.finite 0.14)).home +
        (computeHDA (.finite 0) (.finite 0.14)).draw +
        (computeHDA (.finite 0) (.finite 0.14)).away - 1| ≤ 0.000000001) := by
  have hcb := exp_neg_0175_bounds
  have hFb := exp_neg_0066_bounds
  have hFpos : (0 : ℝ) < Real.exp (-0.066) := Real.exp_pos _
  have h1F : (0 : ℝ) < 1 + Real.exp (-0.066) := by linarith
  have hceq : hdaCloseness 0 0.14 = Real.exp (-0.175) := by
    rw [hdaCloseness, hdaDiff]
    have habs : |(0 : ℝ) - 0.14| = 0.14 := by
      rw [abs_of_nonpos (by norm_num)]; norm_num
    rw [habs]
    norm_num
  have hdeq : hdaDraw 0 0.14 = 0.22 + 0.12 * Real.exp (-0.175) := by
    rw [hdaDraw_eq_unclamped, hceq]
  have harg : -kSteep * hdaX 0 0.14 = (-0.066 : ℝ) := by
    rw [kSteep, hdaX, hdaDiff, homeAdv]; norm_num
  have hWeq : hdaWinNoDraw 0 0.14 = 1 / (1 + Real.exp (-0.066)) := by
    rw [hdaWinNoDraw, harg]
  have hhome : (computeHDA (.finite 0) (.finite 0.14)).home = 0.3508 := by
    rw [r4_home_returned, hdaHome0, hdaRemaining, hdeq, hWeq]
    have := r4_eq_int
      (x := (1 - (0.22 + 0.12 * Real.exp (-0.175))) * (1 / (1 + Real.exp (-0.066))))
      (n := 3508) ?lo ?hi
    case lo =>
      rw [mul_one_div, div_mul_eq_mul_div, le_div_iff h1F]
      nlinarith [hcb.1, hcb.2, hFb.1, hFb.2]
    case hi =>
      rw [mul_one_div, div_mul_eq_mul_div, div_lt_iff h1F]
      nlinarith [hcb.1, hcb.2, hFb.1, hFb.2]
    rw [this]; norm_num
  have hdraw : (computeHDA (.finite 0) (.finite 0.14)).draw = 0.3207 := by
    rw [r4_draw_returned, hdeq]
    have := r4_eq_int (x := 0.22 + 0.12 * Real.exp (-0.175)) (n := 3207)
      (by nlinarith [hcb.1, hcb.2]) (by nlinarith [hcb.1, hcb.2])
    rw [this]; norm_num
  have haway : (computeHDA (.finite 0) (.finite 0.14)).away = 0.3284 := by
    rw [r4_away_returned, hdaAway0, hdaRemaining, hdeq, hWeq]
    have hcompl : 1 - 1 / (1 + Real.exp (-0.066)) =
        Real.exp (-0.066) / (1 + Real.exp (-0.066)) := by
      field_simp
    rw [hcompl]
    have := r4_eq_int
      (x := (1 - (0.22 + 0.12 * Real.exp (-0.175))) *
        (Real.exp (-0.066) / (1 + Real.exp (-0.066))))
      (n := 3284) ?lo ?hi
    case lo =>
      rw [mul_div_assoc', div_mul_eq_mul_div, le_div_iff h1F]
      nlinarith [hcb.1, hcb.2, hFb.1, hFb.2]
    case hi =>
      rw [mul_div_assoc', div_mul_eq_mul_div, div_lt_iff h1F]
      nlinarith [hcb.1, hcb.2, hFb.1, hFb.2]
    rw [this]; norm_num
  refine ⟨hhome, hdraw, haway, ?_, ?_⟩
  · rw [hhome, hdraw, haway]; norm_num
  · rw [hhome, hdraw, haway]
    rw [show (0.3508 : ℝ) + 0.3207 + 0.3284 - 1 = -0.0001 by norm_num]
    rw [abs_neg, abs_of_nonneg (by norm_num)]
    norm_num

theorem r4_07 : ∀ q : ℝ, q = 0.56 ∨ q = 0.60 ∨ q = 0.25 ∨ q = 0.28 ∨ q = 0.15 ∨ q = 0.18 →
    r4 q = q := by
  rintro q (rfl | rfl | rfl | rfl | rfl | rfl)
  · have := r4_eq_int (x := (0.56 : ℝ)) (n := 5600) (by norm_num) (by norm_num)
    rw [this]; norm_num
  · have := r4_eq_int (x := (0.60 : ℝ)) (n := 6000) (by norm_num) (by norm_num)
    rw [this]; norm_num
  · have := r4_eq_int (x := (0.25 : ℝ)) (n := 2500) (by norm_num) (by norm_num)
    rw [this]; norm_num
  · have := r4_eq_int (x := (0.28 : ℝ)) (n := 2800) (by norm_num) (by norm_num)
    rw [this]; norm_num
  · have := r4_eq_int (x := (0.15 : ℝ)) (n := 1500) (by norm_num) (by norm_num)
    rw [this]; norm_num
  · have := r4_eq_int (x := (0.18 : ℝ)) (n := 1800) (by norm_num) (by norm_num)
    rw [this]; norm_num

theorem hda_18_12_bounds :
    0.56 ≤ (computeHDA (.finite 1.8) (.finite 1.2)).home ∧
    (computeHDA (.finite 1.8) (.finite 1.2)).home ≤ 0.60 ∧
    0.25 ≤ (computeHDA (.finite 1.8) (.finite 1.2)).draw ∧
    (computeHDA (.finite 1.8) (.finite 1.2)).draw ≤ 0.28 ∧
    0.15 ≤ (computeHDA (.finite 1.8) (.finite 1.2)).away ∧
    (computeHDA (.finite 1.8) (.finite 1.2)).away ≤ 0.18 := by
  have hcb := exp_neg_075_bounds
  have hGb := exp_neg_1287_bounds
  have hGpos : (0 : ℝ) < Real.exp (-1.287) := Real.exp_pos _
  have h1G : (0 : ℝ) < 1 + Real.exp (-1.287) := by linarith
  have hceq : hdaCloseness 1.8 1.2 = Real.exp (-0.75) := by
    rw [hdaCloseness, hdaDiff]
    have habs : |(1.8 : ℝ) - 1.2| = 0.6 := by
      rw [abs_of_nonneg (by norm_num)]; norm_num
    rw [habs]
    norm_num
  have hdeq : hdaDraw 1.8 1.2 = 0.22 + 0.12 * Real.exp (-0.75) := by
    rw [hdaDraw_eq_unclamped, hceq]
  have harg : -kSteep * hdaX 1.8 1.2 = (-1.287 : ℝ) := by
    rw [kSteep, hdaX, hdaDiff, homeAdv]; norm_num
  have hWeq : hdaWinNoDraw 1.8 1.2 = 1 / (1 + Real.exp (-1.287)) := by
    rw [hdaWinNoDraw, harg]
  have hh0 : (0.56 : ℝ) ≤ hdaHome0 1.8 1.2 := by
    rw [hdaHome0, hdaRemaining, hdeq, hWeq, mul_one_div, le_div_iff h1G]
    nlinarith [hcb.1, hcb.2, hGb.1, hGb.2]
  have hh1 : hdaHome0 1.8 1.2 ≤ 0.60 := by
    rw [hdaHome0, hdaRemaining, hdeq, hWeq, mul_one_div, div_le_iff h1G]
    nlinarith [hcb.1, hcb.2, hGb.1, hGb.2]
  have ha0 : (0.15 : ℝ) ≤ hdaAway0 1.8 1.2 := by
    rw [hdaAway0, hdaRemaining, hdeq, hWeq]
    have hcompl : 1 - 1 / (1 + Real.exp (-1.287)) =
        Real.exp (-1.287) / (1 + Real.exp (-1.287)) := by
      field_simp
    rw [hcompl, mul_div_assoc', le_div_iff h1G]
    nlinarith [hcb.1, hcb.2, hGb.1, hGb.2]
  have ha1 : hdaAway0 1.8 1.2 ≤ 0.18 := by
    rw [hdaAway0, hdaRemaining, hdeq, hWeq]
    have hcompl : 1 - 1 / (1 + Real.exp (-1.287)) =
        Real.exp (-1.287) / (1 + Real.exp (-1.287)) := by
      field_simp
    rw [hcompl, mul_div_assoc', div_le_iff h1G]
    nlinarith [hcb.1, hcb.2, hGb.1, hGb.2]
  have hd0 : (0.25 : ℝ) ≤ hdaDraw 1.8 1.2 := by
    rw [hdeq]; nlinarith [hcb.1]
  have hd1 : hdaDraw 1.8 1.2 ≤ 0.28 := by
    rw [hdeq]; nlinarith [hcb.2]
  rw [r4_home_returned, r4_draw_returned, r4_away_returned]
  refine ⟨?_, ?_, ?_, ?_, ?_, ?_⟩
  · rw [← r4_07 0.56 (by tauto)]; exact r4_mono hh0
  · rw [← r4_07 0.60 (by tauto)]; exact r4_mono hh1
  · rw [← r4_07 0.25 (by tauto)]; exact r4_mono hd0
  · rw [← r4_07 0.28 (by tauto)]; exact r4_mono hd1
  · rw [← r4_07 0.15 (by tauto)]; exact r4_mono ha0
  · rw [← r4_07 0.18 (by tauto)]; exact r4_mono ha1

/-- C8 counterexample: at (1.8, 1.2) the returned home probability exceeds
0.55, so it does not lie in the band [0.50, 0.55] stated by the claim. -/
theorem computeHDA_18_12_home_above_band :
    0.55 < (computeHDA (.finite 1.8) (.finite 1.2)).home := by
  have h := hda_18_12_bounds
  linarith [h.1]

/-- C8 amended: computeHDA(1.8, 1.2) computes diff = 0.6 and x = 0.78 and
returns a home-favored distribution with home in [0.55, 0.60], draw in
[0.25, 0.28] and away in [0.15, 0.18]. -/
theorem computeHDA_18_12_bands :
    hdaDiff 1.8 1.2 = 0.6 ∧
    hdaX 1.8 1.2 = 0.78 ∧
    0.55 ≤ (computeHDA (.finite 1.8) (.finite 1.2)).home ∧
    (computeHDA (.finite 1.8) (.finite 1.2)).home ≤ 0.60 ∧
    0.25 ≤ (computeHDA (.finite 1.8) (.finite 1.2)).draw ∧
    (computeHDA (.finite 1.8) (.finite 1.2)).draw ≤ 0.28 ∧
    0.15 ≤ (computeHDA (.finite 1.8) (.finite 1.2)).away ∧
    (computeHDA (.finite 1.8) (.finite 1.2)).away ≤ 0.18 := by
  have h := hda_18_12_bounds
  refine ⟨?_, ?_, by linarith [h.1], h.2.1, h.2.2.1, h.2.2.2.1, h.2.2.2.2.1, h.2.2.2.2.2⟩
  · rw [hdaDiff]; norm_num
  · rw [hdaX, hdaDiff, homeAdv]; norm_num

theorem homePre_mono_nonneg {t1 t2 : ℝ} (h0 : 0 ≤ t1) (hlt : t1 < t2) :
    homePre t1 < homePre t2 := by
  rw [homePre, homePre, abs_of_nonneg h0, abs_of_nonneg (by linarith)]
  have hF1 := Real.exp_pos (-1.65 * (t1 + 0.18))
  have hF2 := Real.exp_pos (-1.65 * (t2 + 0.18))
  have hFlt : Real.exp (-1.65 * (t2 + 0.18)) < Real.exp (-1.65 * (t1 + 0.18)) :=
    Real.exp_lt_exp.2 (by nlinarith)
  have hPlt : Real.exp (-t2 * 1.25) < Real.exp (-t1 * 1.25) :=
    Real.exp_lt_exp.2 (by nlinarith)
  have hP1le : Real.exp (-t1 * 1.25) ≤ 1 := Real.exp_le_one_iff.2 (by nlinarith)
  have hf : 1 - (0.22 + 0.12 * Real.exp (-t1 * 1.25)) <
      1 - (0.22 + 0.12 * Real.exp (-t2 * 1.25)) := by linarith
  have hw : 1 / (1 + Real.exp (-1.65 * (t1 + 0.18))) ≤
      1 / (1 + Real.exp (-1.65 * (t2 + 0.18))) :=
    le_of_lt (one_div_lt_one_div_of_lt (by linarith) (by linarith))
  have hwpos : 0 < 1 / (1 + Real.exp (-1.65 * (t1 + 0.18))) := by positivity
  have hP2pos := Real.exp_pos (-t2 * 1.25)
  exact mul_lt_mul hf hw hwpos (by nlinarith)

theorem awayPre_anti_nonpos {t1 t2 : ℝ} (hlt : t1 < t2) (h2 : t2 ≤ 0) :
    awayPre t2 < awayPre t1 := by
  rw [awayPre, awayPre, abs_of_nonpos h2, abs_of_nonpos (by linarith)]
  have hF1 := Real.exp_pos (-1.65 * (t1 + 0.18))
  have hF2 := Real.exp_pos (-1.65 * (t2 + 0.18))
  have hFlt : Real.exp (-1.65 * (t2 + 0.18)) < Real.exp (-1.65 * (t1 + 0.18)) :=
    Real.exp_lt_exp.2 (by nlinarith)
  have hPlt : Real.exp (- -t1 * 1.25) < Real.exp (- -t2 * 1.25) :=
    Real.exp_lt_exp.2 (by nlinarith)
  have hP2le : Real.exp (- -t2 * 1.25) ≤ 1 := Real.exp_le_one_iff.2 (by nlinarith)
  have hf : 1 - (0.22 + 0.12 * Real.exp (- -t2 * 1.25)) <
      1 - (0.22 + 0.12 * Real.exp (- -t1 * 1.25)) := by linarith
  have hfpos : 0 < 1 - (0.22 + 0.12 * Real.exp (- -t2 * 1.25)) := by
    have := Real.exp_pos (- -t2 * 1.25)
    linarith
  have hcompl2 : 1 - 1 / (1 + Real.exp (-1.65 * (t2 + 0.18))) =
      Real.exp (-1.65 * (t2 + 0.18)) / (1 + Real.exp (-1.65 * (t2 + 0.18))) := by
    field_simp
  have hcompl1 : 1 - 1 / (1 + Real.exp (-1.65 * (t1 + 0.18))) =
      Real.exp (-1.65 * (t1 + 0.18)) / (1 + Real.exp (-1.65 * (t1 + 0.18))) := by
    field_simp
  rw [hcompl1, hcompl2]
  have hwle : Real.exp (-1.65 * (t2 + 0.18)) / (1 + Real.exp (-1.65 * (t2 + 0.18))) ≤
      Real.exp (-1.65 * (t1 + 0.18)) / (1 + Real.exp (-1.65 * (t1 + 0.18))) := by
    rw [div_le_div_iff (by linarith) (by linarith)]
    nlinarith
  have hwpos : 0 < Real.exp (-1.65 * (t2 + 0.18)) /
      (1 + Real.exp (-1.65 * (t2 + 0.18))) := by positivity
  have hP1pos := Real.exp_pos (- -t1 * 1.25)
  exact mul_lt_mul hf hwle hwpos (by nlinarith)

theorem homePre_key {A B P Q : ℝ} (hA0 : 0 < A) (hAB : A < B) (hPQ : P < Q)
    (hQ1 : Q ≤ 1) (hB135 : B ≤ 1.35) (hcross : A * Q ≤ B * P) :
    (1 - (0.22 + 0.12 * P)) * A * (1 + B) < (1 - (0.22 + 0.12 * Q)) * B * (1 + A) := by
  have u1 : A * (Q - P) ≤ B * (Q - P) :=
    mul_le_mul_of_nonneg_right (le_of_lt hAB) (by linarith)
  have u2 : B * (Q - P) ≤ Q * (B - A) := by nlinarith [hcross]
  have u3 : A * (B * (Q - P)) ≤ A * (Q * (B - A)) :=
    mul_le_mul_of_nonneg_left u2 (le_of_lt hA0)
  have hA135 : A ≤ 1.35 := le_trans (le_of_lt hAB) hB135
  have u4 : A * Q ≤ 1.35 :=
    le_trans (mul_le_of_le_one_right (le_of_lt hA0) hQ1) hA135
  have u5 : A * Q * (B - A) ≤ 1.35 * (B - A) :=
    mul_le_mul_of_nonneg_right u4 (by linarith)
  have u6 : Q * (B - A) ≤ B - A :=
    mul_le_of_le_one_left (by linarith) hQ1
  have w1 : Q * B - P * A ≤ 2 * (B - A) := by nlinarith [u1, u2, u6]
  have w2 : Q * (A * B) - P * (A * B) ≤ 1.35 * (B - A) := by nlinarith [u3, u5]
  nlinarith [w1, w2, hAB]

theorem awayPre_key {F1 F2 P1 P2 : ℝ} (hF20 : 0 < F2) (hF1lt1 : F1 < 1)
    (hF21 : F2 < F1) (hP21 : P2 < P1) (hP1le1 : P1 ≤ 1) (hP20 : 0 < P2)
    (hcross : F2 * P1 ≤ F1 * P2) :
    (1 - (0.22 + 0.12 * P2)) * F2 * (1 + F1) < (1 - (0.22 + 0.12 * P1)) * F1 * (1 + F2) := by
  have hP2le1 : P2 ≤ 1 := le_trans (le_of_lt hP21) hP1le1
  have v1 : F2 * (P1 - P2) ≤ P2 * (F1 - F2) := by nlinarith [hcross]
  have v2 : F1 * (F2 * (P1 - P2)) ≤ F1 * (P2 * (F1 - F2)) :=
    mul_le_mul_of_nonneg_left v1 (by linarith)
  have v3 : F1 * P2 ≤ 1 :=
    mul_le_one (le_of_lt hF1lt1) (le_of_lt hP20) hP2le1
  have v4 : F1 * P2 * (F1 - F2) ≤ 1 * (F1 - F2) :=
    mul_le_mul_of_nonneg_right v3 (by linarith)
  have v5 : P1 * (F1 - F2) ≤ F1 - F2 :=
    mul_le_of_le_one_left (by linarith) hP1le1
  have w1 : P1 * F1 - P2 * F2 ≤ 2 * (F1 - F2) := by nlinarith [v1, v5]
  have w2 : P1 * (F1 * F2) - P2 * (F1 * F2) ≤ F1 - F2 := by nlinarith [v2, v4]
  nlinarith [w1, w2, hF21]

theorem homePre_mono_nonpos {t1 t2 : ℝ} (hlt : t1 < t2) (h2 : t2 ≤ 0) :
    homePre t1 < homePre t2 := by
  rw [homePre, homePre, abs_of_nonpos h2, abs_of_nonpos (by linarith)]
  have hFA : Real.exp (-1.65 * (t1 + 0.18)) = (Real.exp (1.65 * t1 + 0.297))⁻¹ := by
    rw [← Real.exp_neg]
    congr 1
    ring
  have hFB : Real.exp (-1.65 * (t2 + 0.18)) = (Real.exp (1.65 * t2 + 0.297))⁻¹ := by
    rw [← Real.exp_neg]
    congr 1
    ring
  have hPA : (- -t1 * 1.25 : ℝ) = 1.25 * t1 := by ring
  have hPB : (- -t2 * 1.25 : ℝ) = 1.25 * t2 := by ring
  rw [hFA, hFB, hPA, hPB]
  have hA0 : (0 : ℝ) < Real.exp (1.65 * t1 + 0.297) := Real.exp_pos _
  have hB0 : (0 : ℝ) < Real.exp (1.65 * t2 + 0.297) := Real.exp_pos _
  have hwA : 1 / (1 + (Real.exp (1.65 * t1 + 0.297))⁻¹) =
      Real.exp (1.65 * t1 + 0.297) / (1 + Real.exp (1.65 * t1 + 0.297)) := by
    rw [inv_eq_one_div]
    field_simp
    ring
  have hwB : 1 / (1 + (Real.exp (1.65 * t2 + 0.297))⁻¹) =
      Real.exp (1.65 * t2 + 0.297) / (1 + Real.exp (1.65 * t2 + 0.297)) := by
    rw [inv_eq_one_div]
    field_simp
    ring
  rw [hwA, hwB, mul_div_assoc', mul_div_assoc',
    div_lt_div_iff (by linarith) (by linarith)]
  have hAB : Real.exp (1.65 * t1 + 0.297) < Real.exp (1.65 * t2 + 0.297) :=
    Real.exp_lt_exp.2 (by linarith)
  have hPQ : Real.exp (1.25 * t1) < Real.exp (1.25 * t2) :=
    Real.exp_lt_exp.2 (by linarith)
  have hQ1 : Real.exp (1.25 * t2) ≤ 1 := Real.exp_le_one_iff.2 (by linarith)
  have hB135 : Real.exp (1.65 * t2 + 0.297) ≤ 1.35 := by
    have hx : Real.exp (1.65 * t2 + 0.297) ≤ Real.exp 0.297 :=
      Real.exp_le_exp.2 (by linarith)
    have hy := exp_0297_bounds.2
    linarith
  have hcross : Real.exp (1.65 * t1 + 0.297) * Real.exp (1.25 * t2) ≤
      Real.exp (1.65 * t2 + 0.297) * Real.exp (1.25 * t1) := by
    rw [← Real.exp_add, ← Real.exp_add]
    exact Real.exp_le_exp.2 (by linarith)
  exact homePre_key hA0 hAB hPQ hQ1 hB135 hcross

theorem awayPre_anti_nonneg {t1 t2 : ℝ} (h0 : 0 ≤ t1) (hlt : t1 < t2) :
    awayPre t2 < awayPre t1 := by
  rw [awayPre, awayPre, abs_of_nonneg h0, abs_of_nonneg (by linarith)]
  have hF10 : (0 : ℝ) < Real.exp (-1.65 * (t1 + 0.18)) := Real.exp_pos _
  have hF20 : (0 : ℝ) < Real.exp (-1.65 * (t2 + 0.18)) := Real.exp_pos _
  have hP10 : (0 : ℝ) < Real.exp (-t1 * 1.25) := Real.exp_pos _
  have hP20 : (0 : ℝ) < Real.exp (-t2 * 1.25) := Real.exp_pos _
  have hcompl1 : 1 - 1 / (1 + Real.exp (-1.65 * (t1 + 0.18))) =
      Real.exp (-1.65 * (t1 + 0.18)) / (1 + Real.exp (-1.65 * (t1 + 0.18))) := by
    field_simp
  have hcompl2 : 1 - 1 / (1 + Real.exp (-1.65 * (t2 + 0.18))) =
      Real.exp (-1.65 * (t2 + 0.18)) / (1 + Real.exp (-1.65 * (t2 + 0.18))) := by
    field_simp
  rw [hcompl1, hcompl2, mul_div_assoc', mul_div_assoc',
    div_lt_div_iff (by linarith) (by linarith)]
  have hF21 : Real.exp (-1.65 * (t2 + 0.18)) < Real.exp (-1.65 * (t1 + 0.18)) :=
    Real.exp_lt_exp.2 (by nlinarith)
  have hF1lt1 : Real.exp (-1.65 * (t1 + 0.18)) < 1 :=
    Real.exp_lt_one_iff.2 (by nlinarith)
  have hP21 : Real.exp (-t2 * 1.25) < Real.exp (-t1 * 1.25) :=
    Real.exp_lt_exp.2 (by nlinarith)
  have hP1le1 : Real.exp (-t1 * 1.25) ≤ 1 := Real.exp_le_one_iff.2 (by nlinarith)
  have hcross : Real.exp (-1.65 * (t2 + 0.18)) * Real.exp (-t1 * 1.25) ≤
      Real.exp (-1.65 * (t1 + 0.18)) * Real.exp (-t2 * 1.25) := by
    rw [← Real.exp_add, ← Real.exp_add]
    exact Real.exp_le_exp.2 (by nlinarith)
  exact awayPre_key hF20 hF1lt1 hF21 hP21 hP1le1 hP20 hcross

theorem homePre_strictMono {t1 t2 : ℝ} (hlt : t1 < t2) : homePre t1 < homePre t2 := by
  rcases le_or_lt t2 0 with h2 | h2
  · exact homePre_mono_nonpos hlt h2
  · rcases le_or_lt 0 t1 with h1 | h1
    · exact homePre_mono_nonneg h1 hlt
    · calc homePre t1 < homePre 0 := homePre_mono_nonpos h1 le_rfl
        _ < homePre t2 := homePre_mono_nonneg le_rfl h2

theorem awayPre_strictAnti {t1 t2 : ℝ} (hlt : t1 < t2) : awayPre t2 < awayPre t1 := by
  rcases le_or_lt t2 0 with h2 | h2
  · exact awayPre_anti_nonpos hlt h2
  · rcases le_or_lt 0 t1 with h1 | h1
    · exact awayPre_anti_nonneg h1 hlt
    · calc awayPre t2 < awayPre 0 := awayPre_anti_nonneg le_rfl h2
        _ < awayPre t1 := awayPre_anti_nonpos h1 le_rfl

/-- C7 counterexample: the returned (rounded) probabilities are not
strictly monotone in homeRating: at away rating 0, home ratings 10 and 11
produce identical returned triples, with equal home and equal away. -/
theorem computeHDA_returned_not_strictly_monotone :
    (10 : ℝ) < 11 ∧
    (computeHDA (.finite 11) (.finite 0)).home =
      (computeHDA (.finite 10) (.finite 0)).home ∧
    (computeHDA (.finite 11) (.finite 0)).away =
      (computeHDA (.finite 10) (.finite 0)).away := by
  refine ⟨by norm_num, ?_, ?_⟩ <;> rw [computeHDA_at_ten, computeHDA_at_eleven]

/-- C7 amended: holding awayRating fixed, increasing homeRating strictly
increases the pre-rounding home probability and strictly decreases the
pre-rounding away probability; the returned (4-decimal rounded) home is
non-decreasing and the returned away non-increasing (strictness can be
lost to rounding). -/
theorem computeHDA_home_monotone : ∀ a h1 h2 : ℝ, h1 < h2 →
    hdaHome0 h1 a / hdaS h1 a < hdaHome0 h2 a / hdaS h2 a ∧
    hdaAway0 h2 a / hdaS h2 a < hdaAway0 h1 a / hdaS h1 a ∧
    (computeHDA (.finite h1) (.finite a)).home ≤
      (computeHDA (.finite h2) (.finite a)).home ∧
    (computeHDA (.finite h2) (.finite a)).away ≤
      (computeHDA (.finite h1) (.finite a)).away := by
  intro a h1 h2 hlt
  have hh : homePre (h1 - a) < homePre (h2 - a) := homePre_strictMono (by linarith)
  have ha : awayPre (h2 - a) < awayPre (h1 - a) := awayPre_strictAnti (by linarith)
  refine ⟨?_, ?_, ?_, ?_⟩
  · rw [hdaS_eq_one, hdaS_eq_one, div_one, div_one,
      hdaHome0_eq_homePre, hdaHome0_eq_homePre]
    exact hh
  · rw [hdaS_eq_one, hdaS_eq_one, div_one, div_one,
      hdaAway0_eq_awayPre, hdaAway0_eq_awayPre]
    exact ha
  · rw [r4_home_returned, r4_home_returned,
      hdaHome0_eq_homePre, hdaHome0_eq_homePre]
    exact r4_mono (le_of_lt hh)
  · rw [r4_away_returned, r4_away_returned,
      hdaAway0_eq_awayPre, hdaAway0_eq_awayPre]
    exact r4_mono (le_of_lt ha)

/-- Witness for the amended C7 at away rating 0 and home ratings 0 < 1. -/
theorem computeHDA_home_monotone_witness :
    hdaHome0 0 0 / hdaS 0 0 < hdaHome0 1 0 / hdaS 1 0 ∧
    hdaAway0 1 0 / hdaS 1 0 < hdaAway0 0 0 / hdaS 0 0 ∧
    (computeHDA (.finite 0) (.finite 0)).home ≤
      (computeHDA (.finite 1) (.finite 0)).home ∧
    (computeHDA (.finite 1) (.finite 0)).away ≤
      (computeHDA (.finite 0) (.finite 0)).away :=
  computeHDA_home_monotone 0 0 1 (by norm_num)
